import Mathlib

/-!
Shallow embedding of the priority task scheduler in
`src/week3/advanced_task_scheduler.hpp`:
`Task`/`TaskResult`, the `TaskComparator` priority queue of the `ThreadPool`,
and the `TaskScheduler` registry operations.  Machine state is passed
explicitly; C++ exceptions are modelled with `Except`; `std::any` is modelled
by an inductive that distinguishes an empty any, an any holding a bare value,
and an any holding a `std::optional` value.
-/

namespace ATS

/-- `enum class Priority { LOW, MEDIUM, HIGH, CRITICAL }`. -/
inductive Priority where
  | low
  | medium
  | high
  | critical
deriving DecidableEq

/-- Numeric value of the `Priority` enumerator, as used by the C++ `<` on the
enum (LOW = 0 < MEDIUM = 1 < HIGH = 2 < CRITICAL = 3). -/
def Priority.val : Priority → Nat
  | .low => 0
  | .medium => 1
  | .high => 2
  | .critical => 3

/-- `enum class TaskStatus { PENDING, RUNNING, COMPLETED, FAILED, CANCELLED }`. -/
inductive TaskStatus where
  | pending
  | running
  | completed
  | failed
  | cancelled
deriving DecidableEq

/-- Tag for the template parameter `ResultType` of `Task<ResultType>`:
the declared result type of a task, recovered by `dynamic_pointer_cast`. -/
inductive RType where
  | natT
  | strT
  | boolT
  | unitT
deriving DecidableEq

/-- A runtime value produced by a task's callable. -/
inductive Val where
  | natV (n : Nat)
  | strV (s : String)
  | boolV (b : Bool)
  | unitV
deriving DecidableEq

/-- The C++ exceptions thrown by the scheduler: `TaskSchedulerException`
(base class, carrying its message), its subclasses `TaskNotFoundException`
and `DuplicateTaskException`, and arbitrary user exceptions thrown by a
task's callable (identified by a numeric payload). -/
inductive Exc where
  | taskScheduler (msg : String)
  | taskNotFound (msg : String)
  | duplicateTask (msg : String)
  | user (code : Nat)
deriving DecidableEq

/-- Model of `std::any`: empty, holding a bare value, or holding a
`std::optional<ResultType>`. -/
inductive AnyVal where
  | empty
  | raw (v : Val)
  | wrapped (o : Option Val)
deriving DecidableEq

/-- `TaskResult<ResultType>`: optional result, optional captured exception,
and its own status field (`status_`).  The `void` specialization stores no
result; we model both with one structure and keep `result = none` for
`void` tasks. -/
structure TaskResult where
  result : Option Val
  exc : Option Exc
  status : TaskStatus
deriving DecidableEq

/-- `TaskResult() : status_(TaskStatus::PENDING)`. -/
def TaskResult.init : TaskResult :=
  { result := none, exc := none, status := .pending }

/-- `TaskResult<ResultType>::getResult` (and the `void` specialization):
rethrows the captured exception if any; otherwise returns the stored value,
or throws `TaskSchedulerException` when there is none.  `rt` is the task's
declared result type, selecting between the generic template and the `void`
specialization. -/
def TaskResult.getResult (rt : RType) (c : TaskResult) : Except Exc Val :=
  match c.exc with
  | some e => .error e
  | none =>
    if rt = .unitT then
      if c.status = .completed then .ok .unitV
      else .error (.taskScheduler "Task not completed")
    else
      match c.result with
      | some v => .ok v
      | none => .error (.taskScheduler "Task has no result")

/-- Injection of `Except` into `Sum`, used to decide equality of callables'
outcomes. -/
def exceptToSum {ε α : Type} : Except ε α → ε ⊕ α
  | .error e => .inl e
  | .ok a => .inr a

instance {ε α : Type} [DecidableEq ε] [DecidableEq α] :
    DecidableEq (Except ε α) := fun a b =>
  decidable_of_iff (exceptToSum a = exceptToSum b)
    (by cases a <;> cases b <;> simp [exceptToSum])

/-- `Task<ResultType>`: name, declared result type, the callable (modelled by
its outcome: a value or a thrown exception), priority, scheduled time
(a numeric instant), the atomic `status_`, the cancellable flag and the
`TaskResult` holder. -/
structure Task where
  name : String
  rtype : RType
  comp : Except Exc Val
  priority : Priority
  schedTime : Nat
  status : TaskStatus
  cancellable : Bool
  res : TaskResult
deriving DecidableEq

/-- The `Task` constructor: status PENDING and an empty result holder. -/
def Task.make (name : String) (rt : RType) (comp : Except Exc Val)
    (prio : Priority) (schedTime : Nat) (cancellable : Bool) : Task :=
  { name := name, rtype := rt, comp := comp, priority := prio,
    schedTime := schedTime, status := .pending, cancellable := cancellable,
    res := TaskResult.init }

/-- `Task::execute`: returns immediately when CANCELLED; otherwise runs the
callable, storing the value (or just marking completed for `void`) and
setting COMPLETED, or capturing the exception and setting FAILED. -/
def Task.execute (t : Task) : Task :=
  if t.status = .cancelled then t
  else
    match t.comp with
    | .ok v =>
      if t.rtype = .unitT then
        { t with status := .completed, res := { t.res with status := .completed } }
      else
        { t with status := .completed,
                 res := { t.res with result := some v, status := .completed } }
    | .error e =>
      { t with status := .failed,
               res := { t.res with exc := some e, status := .failed } }

/-- `Task::cancel`: transitions to CANCELLED only when cancellable and
currently PENDING. -/
def Task.cancel (t : Task) : Task :=
  if t.cancellable ∧ t.status = .pending then
    { t with status := .cancelled, res := { t.res with status := .cancelled } }
  else t

/-- `Task<ResultType>::getResultAsAny`: empty any for `void`; an any wrapping
the `std::optional` from `tryGetResult()` when a result is stored; empty any
otherwise. -/
def Task.getResultAsAny (t : Task) : AnyVal :=
  if t.rtype = .unitT then .empty
  else
    match t.res.result with
    | some _ => .wrapped t.res.result
    | none => .empty

/-- Lifecycle invariant of the result holder: a value is stored exactly for a
COMPLETED task of non-`void` result type.  It holds at construction and is
preserved by `cancel` and by the single `execute` call of the task's life. -/
def Task.wf (t : Task) : Prop :=
  t.res.result.isSome = true ↔ (t.status = .completed ∧ t.rtype ≠ .unitT)

instance (t : Task) : Decidable t.wf := by
  unfold Task.wf; infer_instance

/-- `TaskComparator::operator()`: the strict "less than" used by the pool's
`std::priority_queue` (a max-queue).  `a` is below `b` when `a` has strictly
smaller priority, or equal priority and a strictly later scheduled time. -/
def taskComparator (a b : Task) : Bool :=
  if a.priority ≠ b.priority then
    decide (a.priority.val < b.priority.val)
  else
    decide (a.schedTime > b.schedTime)

/-- One traversal of the heap contents: returns the maximal element under
`taskComparator` together with the remaining elements, modelling which task
`std::priority_queue::top`/`pop` delivers. -/
def selectMax : Task → List Task → Task × List Task
  | m, [] => (m, [])
  | m, x :: xs =>
    if taskComparator m x then
      let p := selectMax x xs
      (p.1, m :: p.2)
    else
      let p := selectMax m xs
      (p.1, x :: p.2)

theorem selectMax_snd_length (m : Task) (l : List Task) :
    (selectMax m l).2.length = l.length := by
  induction l generalizing m with
  | nil => rfl
  | cons x xs ih =>
    simp only [selectMax]
    split <;> simp [ih]

/-- The order in which the pool's priority queue delivers a given multiset of
ready tasks: repeatedly pop the maximal task. -/
def drain (l : List Task) : List Task :=
  match l with
  | [] => []
  | x :: xs => (selectMax x xs).1 :: drain (selectMax x xs).2
termination_by l.length
decreasing_by simp [selectMax_snd_length]

/-- The worker loop once the stop flag is set (`ThreadPool::~ThreadPool` has
run): `return` only when the queue is empty, otherwise pop the top task,
`execute()` it, and loop.  Returns the executed tasks in execution order. -/
def shutdownRun (l : List Task) : List Task :=
  match l with
  | [] => []
  | x :: xs => ((selectMax x xs).1).execute :: shutdownRun (selectMax x xs).2
termination_by l.length
decreasing_by simp [selectMax_snd_length]

/-- `TaskScheduler` state: the name→task registry (`tasks_`, as an
association list), the pool's ready queue and the pending delayed-enqueue
timers (task names), the pool's stop flag, the `Statistics` counters, and the
pool's thread counters. -/
structure TaskScheduler where
  tasks : List (String × Task)
  queue : List String
  timers : List String
  stopped : Bool
  totalTasks : Nat
  completedTasks : Nat
  failedTasks : Nat
  cancelledTasks : Nat
  activeThreads : Nat
  maxThreads : Nat
deriving DecidableEq

/-- In-place update of the task object shared between the registry and the
queue (the C++ sides mutate through a `shared_ptr`). -/
def updateAssoc (l : List (String × Task)) (n : String) (t : Task) :
    List (String × Task) :=
  l.map fun p => if p.1 = n then (p.1, t) else p

/-- `TaskScheduler::scheduleTask`: throws `DuplicateTaskException` when the
name is registered; otherwise creates the task, registers it, bumps
`totalTasks`, and enqueues it now (throwing if the pool is stopped, with the
task left registered) or hands it to a timer thread for a future
`scheduledTime`.  Returns the new state paired with the thrown exception or
the created task. -/
def TaskScheduler.scheduleTask (st : TaskScheduler) (now : Nat) (name : String)
    (rt : RType) (comp : Except Exc Val) (prio : Priority) (schedTime : Nat)
    (cancellable : Bool) : TaskScheduler × Except Exc Task :=
  match st.tasks.lookup name with
  | some _ =>
    (st, .error (.duplicateTask ("Task with name " ++ name ++ " already exists")))
  | none =>
    let task := Task.make name rt comp prio schedTime cancellable
    let st1 := { st with tasks := st.tasks ++ [(name, task)],
                         totalTasks := st.totalTasks + 1 }
    if schedTime ≤ now then
      if st1.stopped then
        (st1, .error (.taskScheduler "ThreadPool has been stopped"))
      else
        ({ st1 with queue := st1.queue ++ [name] }, .ok task)
    else
      ({ st1 with timers := st1.timers ++ [name] }, .ok task)

/-- `TaskScheduler::cancelTask`: throws `TaskNotFoundException` for an
unknown name; otherwise, when the task is cancellable and PENDING, calls
`task.cancel()`, bumps `cancelledTasks` and returns true; otherwise returns
false. -/
def TaskScheduler.cancelTask (st : TaskScheduler) (name : String) :
    TaskScheduler × Except Exc Bool :=
  match st.tasks.lookup name with
  | none => (st, .error (.taskNotFound ("Task " ++ name ++ " not found")))
  | some t =>
    if t.cancellable = true ∧ t.status = .pending then
      ({ st with tasks := updateAssoc st.tasks name t.cancel,
                 cancelledTasks := st.cancelledTasks + 1 }, .ok true)
    else
      (st, .ok false)

/-- `TaskScheduler::getTaskStatus`: throws `TaskNotFoundException` for an
unknown name; otherwise reads the status and then runs the statistics-update
branch, whose guard compares the saved status with a fresh read of the same
field. -/
def TaskScheduler.getTaskStatus (st : TaskScheduler) (name : String) :
    TaskScheduler × Except Exc TaskStatus :=
  match st.tasks.lookup name with
  | none => (st, .error (.taskNotFound ("Task " ++ name ++ " not found")))
  | some t =>
    let status := t.status
    let st1 :=
      if status = .completed ∧ ¬ (t.status = .completed) then
        { st with completedTasks := st.completedTasks + 1 }
      else if status = .failed ∧ ¬ (t.status = .failed) then
        { st with failedTasks := st.failedTasks + 1 }
      else st
    (st1, .ok status)

/-- `TaskScheduler::getTaskResultAsAny`: throws `TaskNotFoundException` for
an unknown name; otherwise returns `task->getResultAsAny()`. -/
def TaskScheduler.getTaskResultAsAny (st : TaskScheduler) (name : String) :
    TaskScheduler × Except Exc AnyVal :=
  match st.tasks.lookup name with
  | none => (st, .error (.taskNotFound ("Task " ++ name ++ " not found")))
  | some t => (st, .ok t.getResultAsAny)

/-- `TaskScheduler::getTaskResult<ResultType>`: throws
`TaskNotFoundException` for an unknown name; throws the base
`TaskSchedulerException` ("Task result type mismatch") when the
`dynamic_pointer_cast<Task<ResultType>>` fails, i.e. when the requested type
differs from the task's declared result type; otherwise returns a copy of
the task's `TaskResult`. -/
def TaskScheduler.getTaskResult (st : TaskScheduler) (name : String)
    (rt : RType) : TaskScheduler × Except Exc TaskResult :=
  match st.tasks.lookup name with
  | none => (st, .error (.taskNotFound ("Task " ++ name ++ " not found")))
  | some t =>
    if t.rtype = rt then (st, .ok t.res)
    else (st, .error (.taskScheduler "Task result type mismatch"))

/-- A worker executing the named task: the shared task object is updated in
the registry. -/
def TaskScheduler.runTask (st : TaskScheduler) (name : String) :
    TaskScheduler :=
  match st.tasks.lookup name with
  | none => st
  | some t => { st with tasks := updateAssoc st.tasks name t.execute }

/-- `TaskScheduler::TaskStatistics`. -/
structure TaskStatistics where
  totalTasks : Nat
  completedTasks : Nat
  failedTasks : Nat
  cancelledTasks : Nat
  pendingTasks : Nat
  activeThreads : Nat
  maxThreads : Nat
deriving DecidableEq

/-- `TaskScheduler::getStatistics`: the stored counters, a live count of
PENDING registry entries, and the pool's thread counts. -/
def TaskScheduler.getStatistics (st : TaskScheduler) : TaskStatistics :=
  { totalTasks := st.totalTasks,
    completedTasks := st.completedTasks,
    failedTasks := st.failedTasks,
    cancelledTasks := st.cancelledTasks,
    pendingTasks := (st.tasks.filter fun p => p.2.status = .pending).length,
    activeThreads := st.activeThreads,
    maxThreads := st.maxThreads }

theorem Priority.val_inj :
    ∀ p q : Priority, p.val = q.val → p = q := by
  intro p q h
  cases p <;> cases q <;> first | rfl | (simp [Priority.val] at h)

/-- Arithmetic characterisation of `TaskComparator`: lexicographic on
(priority ascending, scheduled time descending). -/
theorem taskComparator_spec (a b : Task) :
    taskComparator a b = true ↔
      (a.priority.val < b.priority.val ∨
       (a.priority.val = b.priority.val ∧ b.schedTime < a.schedTime)) := by
  unfold taskComparator
  by_cases h : a.priority = b.priority
  · simp [h]
  · have hv : a.priority.val ≠ b.priority.val := fun he => h (Priority.val_inj _ _ he)
    simp [h, hv]

theorem taskComparator_false_iff (a b : Task) :
    taskComparator a b = false ↔
      ¬ (a.priority.val < b.priority.val ∨
         (a.priority.val = b.priority.val ∧ b.schedTime < a.schedTime)) := by
  rw [← taskComparator_spec, Bool.eq_false_iff, ne_eq]

theorem taskComparator_irrefl (a : Task) : taskComparator a a = false := by
  rw [taskComparator_false_iff]; omega

theorem taskComparator_trans {a b c : Task}
    (h1 : taskComparator a b = true) (h2 : taskComparator b c = true) :
    taskComparator a c = true := by
  rw [taskComparator_spec] at h1 h2 ⊢
  omega

/-- In the strict weak order of the comparator, `a < c` and `b ≮ c`
give `a < b`. -/
theorem taskComparator_lt_of_lt_of_not_lt {a b c : Task}
    (h1 : taskComparator a c = true) (h2 : taskComparator b c = false) :
    taskComparator a b = true := by
  rw [taskComparator_spec] at h1 ⊢
  rw [taskComparator_false_iff] at h2
  omega

theorem selectMax_perm (m : Task) (l : List Task) :
    List.Perm ((selectMax m l).1 :: (selectMax m l).2) (m :: l) := by
  induction l generalizing m with
  | nil => simp [selectMax]
  | cons x xs ih =>
    simp only [selectMax]
    split
    · exact (List.Perm.swap m (selectMax x xs).1 (selectMax x xs).2).trans
        ((ih x).cons m)
    · have s1 : List.Perm
          ((selectMax m xs).1 :: x :: (selectMax m xs).2)
          (x :: (selectMax m xs).1 :: (selectMax m xs).2) :=
        List.Perm.swap x (selectMax m xs).1 (selectMax m xs).2
      have s2 : List.Perm (x :: (selectMax m xs).1 :: (selectMax m xs).2)
          (x :: m :: xs) := (ih m).cons x
      have s3 : List.Perm (x :: m :: xs) (m :: x :: xs) :=
        List.Perm.swap m x xs
      exact (s1.trans s2).trans s3

/-- The selected task is maximal: no task among the candidates is strictly
above it in the comparator's order. -/
theorem selectMax_max (m : Task) (l : List Task) :
    taskComparator (selectMax m l).1 m = false ∧
      ∀ y ∈ l, taskComparator (selectMax m l).1 y = false := by
  induction l generalizing m with
  | nil => exact ⟨taskComparator_irrefl m, by simp⟩
  | cons x xs ih =>
    simp only [selectMax]
    split
    · rename_i hmx
      obtain ⟨h1, h2⟩ := ih x
      have hrm : taskComparator (selectMax x xs).1 m = false := by
        cases hc : taskComparator (selectMax x xs).1 m with
        | false => rfl
        | true => exact absurd (taskComparator_trans hc hmx) (by simp [h1])
      refine ⟨hrm, ?_⟩
      intro y hy
      rcases List.mem_cons.mp hy with hy | hy
      · exact hy ▸ h1
      · exact h2 y hy
    · rename_i hmx
      obtain ⟨h1, h2⟩ := ih m
      have hmx' : taskComparator m x = false := by
        cases hc : taskComparator m x with
        | false => rfl
        | true => exact absurd hc (by simp [hmx])
      have hrx : taskComparator (selectMax m xs).1 x = false := by
        cases hc : taskComparator (selectMax m xs).1 x with
        | false => rfl
        | true =>
          exact absurd (taskComparator_lt_of_lt_of_not_lt hc hmx') (by simp [h1])
      refine ⟨h1, ?_⟩
      intro y hy
      rcases List.mem_cons.mp hy with hy | hy
      · exact hy ▸ hrx
      · exact h2 y hy

theorem drain_perm (l : List Task) : List.Perm (drain l) l := by
  induction l using drain.induct with
  | case1 => simp [drain]
  | case2 x xs ih =>
    rw [drain]
    exact (ih.cons (selectMax x xs).1).trans (selectMax_perm x xs)

/-- The drained sequence never places a strictly smaller task (per the
comparator) before a strictly larger one. -/
theorem drain_sorted (l : List Task) :
    List.Pairwise (fun a b => taskComparator a b = false) (drain l) := by
  induction l using drain.induct with
  | case1 => simp [drain]
  | case2 x xs ih =>
    rw [drain]
    refine List.Pairwise.cons ?_ ih
    intro y hy
    have hy2 : y ∈ (selectMax x xs).1 :: (selectMax x xs).2 :=
      List.mem_cons_of_mem _ ((drain_perm _).mem_iff.mp hy)
    have hy3 : y ∈ x :: xs := (selectMax_perm x xs).mem_iff.mp hy2
    rcases List.mem_cons.mp hy3 with h | h
    · exact h ▸ (selectMax_max x xs).1
    · exact (selectMax_max x xs).2 y h

/-- `shutdownRun` is `drain` followed by `Task.execute` on each popped
task. -/
theorem shutdownRun_eq_map_execute (l : List Task) :
    shutdownRun l = (drain l).map Task.execute := by
  induction l using drain.induct with
  | case1 => simp [drain, shutdownRun]
  | case2 x xs ih => rw [drain, shutdownRun, List.map_cons, ih]

theorem lookup_updateAssoc (l : List (String × Task)) (n : String)
    (t t' : Task) (h : l.lookup n = some t) :
    (updateAssoc l n t').lookup n = some t' := by
  induction l with
  | nil => simp [List.lookup] at h
  | cons p ps ih =>
    obtain ⟨k, v⟩ := p
    by_cases hk : k = n
    · cases hk
      have hu : updateAssoc ((n, v) :: ps) n t' = (n, t') :: updateAssoc ps n t' := by
        simp [updateAssoc]
      rw [hu]
      simp [List.lookup]
    · have hu : updateAssoc ((k, v) :: ps) n t' = (k, v) :: updateAssoc ps n t' := by
        simp [updateAssoc, hk]
      rw [hu]
      have hbeq : (n == k) = false := beq_eq_false_iff_ne.mpr (Ne.symm hk)
      simp only [List.lookup, hbeq] at h ⊢
      exact ih h

/-- The lifecycle invariant holds at task construction. -/
theorem Task.wf_make (n : String) (rt : RType) (c : Except Exc Val)
    (p : Priority) (s : Nat) (cb : Bool) : (Task.make n rt c p s cb).wf := by
  unfold Task.wf Task.make TaskResult.init
  simp

/-- The lifecycle invariant is preserved by `cancel`. -/
theorem Task.wf_cancel (t : Task) (h : t.wf) : t.cancel.wf := by
  unfold Task.cancel
  split
  · rename_i hc
    unfold Task.wf at h ⊢
    simp only []
    rw [h]
    simp [hc.2]
  · exact h

/-- The lifecycle invariant is preserved by the (single) `execute` call made
on a task that is still PENDING. -/
theorem Task.wf_execute (t : Task) (hp : t.status = .pending) (h : t.wf) :
    t.execute.wf := by
  have hres : t.res.result = none := by
    cases hr : t.res.result with
    | none => rfl
    | some v => exact absurd (h.mp (by rw [hr]; rfl)).1 (by simp [hp])
  unfold Task.execute Task.wf
  rw [if_neg (by simp [hp])]
  cases hc : t.comp with
  | ok v => by_cases hrt : t.rtype = .unitT <;> simp [hrt, hres]
  | error e => simp [hres]

/-! Concrete fixtures used by witness and counterexample theorems. -/

/-- A HIGH-priority task due at instant 9. -/
def wTaskHigh : Task := Task.make "A" .natT (.ok (.natV 1)) .high 9 true

/-- A MEDIUM-priority task due at instant 3. -/
def wTaskLow : Task := Task.make "B" .natT (.ok (.natV 2)) .medium 3 true

/-- A task whose callable throws the user exception `user 7`. -/
def wFailTask : Task := Task.make "F" .natT (.error (.user 7)) .medium 0 true

/-- A PENDING cancellable task. -/
def wPendTask : Task := Task.make "P" .natT (.ok (.natV 5)) .low 2 true

/-- A task cancelled while PENDING. -/
def wCancTask : Task := (Task.make "C" .natT (.ok (.natV 9)) .medium 0 true).cancel

/-- A FAILED task whose callable would succeed if invoked again. -/
def wDoneFail : Task :=
  { name := "D", rtype := .natT, comp := .ok (.natV 1), priority := .medium,
    schedTime := 0, status := .failed, cancellable := true,
    res := { result := none, exc := some (.user 3), status := .failed } }

/-- A PENDING task sitting in the pool's queue at shutdown. -/
def wQueuedTask : Task := Task.make "Q" .natT (.ok (.natV 7)) .medium 0 true

/-- An empty scheduler with four pool threads. -/
def wSched0 : TaskScheduler :=
  { tasks := [], queue := [], timers := [], stopped := false, totalTasks := 0,
    completedTasks := 0, failedTasks := 0, cancelledTasks := 0,
    activeThreads := 0, maxThreads := 4 }

/-- A scheduler holding the executed failing task `wFailTask`. -/
def wSchedF : TaskScheduler :=
  { wSched0 with tasks := [("F", wFailTask.execute)], totalTasks := 1 }

/-- A scheduler holding the PENDING task `wPendTask`, still queued. -/
def wSchedP : TaskScheduler :=
  { wSched0 with tasks := [("P", wPendTask)], queue := ["P"], totalTasks := 1 }

/-- A scheduler holding the FAILED task `wDoneFail`. -/
def wSchedD : TaskScheduler :=
  { wSched0 with tasks := [("D", wDoneFail)], totalTasks := 1 }

/-- `wSched0` after `scheduleTask("job", return 42, MEDIUM, now, true)`. -/
def wSchedJob : TaskScheduler :=
  (TaskScheduler.scheduleTask wSched0 0 "job" .natT (.ok (.natV 42)) .medium 0
    true).1

/-- `wSchedJob` after a worker executed "job" (it is now COMPLETED). -/
def wSchedRun : TaskScheduler := TaskScheduler.runTask wSchedJob "job"

/-- The "job" task of `wSchedRun` after execution. -/
def wTaskJobDone : Task :=
  (Task.make "job" .natT (.ok (.natV 42)) .medium 0 true).execute

/-! Claim theorems. -/

/-- C1: for tasks A and B simultaneously present in the pool's ready queue,
A is dequeued before B when A.priority > B.priority, and at equal priority
the task with the strictly earlier scheduled time is dequeued first — the
`TaskComparator` orders by priority descending, then scheduled time
ascending. -/
theorem claim_dequeue_order (l : List Task) (a b : Task)
    (ha : a ∈ l) (hb : b ∈ l)
    (h : b.priority.val < a.priority.val ∨
         (a.priority = b.priority ∧ a.schedTime < b.schedTime)) :
    ∃ i j : Fin (drain l).length, i < j ∧
      (drain l).get i = a ∧ (drain l).get j = b := by
  have hba : taskComparator b a = true := by
    rw [taskComparator_spec]
    rcases h with h | ⟨hp, ht⟩
    · exact Or.inl h
    · exact Or.inr ⟨congrArg Priority.val hp.symm, ht⟩
  have hne : a ≠ b := by
    intro he
    rw [he] at hba
    rw [taskComparator_irrefl b] at hba
    cases hba
  obtain ⟨i, hi⟩ := List.mem_iff_get.mp ((drain_perm l).mem_iff.mpr ha)
  obtain ⟨j, hj⟩ := List.mem_iff_get.mp ((drain_perm l).mem_iff.mpr hb)
  refine ⟨i, j, ?_, hi, hj⟩
  rcases lt_trichotomy (i : ℕ) (j : ℕ) with hij | hij | hij
  · exact hij
  · exact absurd (hi ▸ hj ▸ congrArg (drain l).get (Fin.ext hij)) hne
  · exfalso
    have hp := List.pairwise_iff_get.mp (drain_sorted l) j i hij
    rw [hi, hj] at hp
    rw [hp] at hba
    cases hba

/-- C1 witness: with a MEDIUM task due at 3 and a HIGH task due at 9 both in
the queue, the HIGH task is dequeued first. -/
theorem claim_dequeue_order_witness :
    wTaskLow.priority.val < wTaskHigh.priority.val ∧
    ∃ i j : Fin (drain [wTaskLow, wTaskHigh]).length, i < j ∧
      (drain [wTaskLow, wTaskHigh]).get i = wTaskHigh ∧
      (drain [wTaskLow, wTaskHigh]).get j = wTaskLow :=
  ⟨by decide,
   claim_dequeue_order [wTaskLow, wTaskHigh] wTaskHigh wTaskLow
     (by decide) (by decide) (Or.inl (by decide))⟩

/-- C2: `scheduleTask` under a name that is already registered throws
`DuplicateTaskException` and leaves the whole scheduler state — the registry
(and hence the prior task's status and result), the `totalTasks` counter, the
pool queue and the timers — unchanged. -/
theorem claim_scheduleTask_duplicate (st : TaskScheduler) (now : Nat)
    (name : String) (rt : RType) (comp : Except Exc Val) (prio : Priority)
    (schedTime : Nat) (cancellable : Bool) (t : Task)
    (h : st.tasks.lookup name = some t) :
    TaskScheduler.scheduleTask st now name rt comp prio schedTime cancellable =
      (st, .error (.duplicateTask
        ("Task with name " ++ name ++ " already exists"))) := by
  simp only [TaskScheduler.scheduleTask, h]

/-- C2 witness: rescheduling "P" on `wSchedP` fails with DuplicateTask and
returns the state unchanged. -/
theorem claim_scheduleTask_duplicate_witness :
    wSchedP.tasks.lookup "P" = some wPendTask ∧
    TaskScheduler.scheduleTask wSchedP 0 "P" .natT (.ok (.natV 3)) .low 0 true =
      (wSchedP, .error (.duplicateTask
        ("Task with name " ++ "P" ++ " already exists"))) :=
  ⟨rfl, claim_scheduleTask_duplicate wSchedP 0 "P" .natT (.ok (.natV 3)) .low 0
    true wPendTask rfl⟩

/-- C3: when a task's callable throws `e`, `execute()` returns normally with
the exception captured in the result holder, the task ends FAILED, and a
later `getTaskResult(...).getResult()` re-raises the original `e` itself. -/
theorem claim_execute_captures_error (t : Task) (e : Exc)
    (h1 : t.status ≠ .cancelled) (h2 : t.comp = .error e) :
    (t.execute).status = .failed ∧
    (t.execute).res.exc = some e ∧
    TaskResult.getResult t.rtype (t.execute).res = .error e ∧
    ∀ st name, st.tasks.lookup name = some t.execute →
      (TaskScheduler.getTaskResult st name t.rtype).2 = .ok (t.execute).res := by
  have he : t.execute =
      { t with status := .failed,
               res := { t.res with exc := some e, status := .failed } } := by
    unfold Task.execute
    rw [if_neg h1, h2]
  refine ⟨by rw [he], by rw [he], ?_, ?_⟩
  · rw [he]
    unfold TaskResult.getResult
    rfl
  · intro st name hl
    simp only [TaskScheduler.getTaskResult, hl]
    have : (t.execute).rtype = t.rtype := by rw [he]
    rw [this, if_pos rfl]

/-- C3 witness: executing `wFailTask` (callable throws `user 7`) yields
status FAILED, and the typed result accessor re-raises `user 7`. -/
theorem claim_execute_captures_error_witness :
    (wFailTask.execute).status = .failed ∧
    (wFailTask.execute).res.exc = some (.user 7) ∧
    TaskResult.getResult wFailTask.rtype (wFailTask.execute).res =
      .error (.user 7) ∧
    (TaskScheduler.getTaskResult wSchedF "F" wFailTask.rtype).2 =
      .ok (wFailTask.execute).res :=
  ⟨(claim_execute_captures_error wFailTask (.user 7) (by decide) rfl).1,
   (claim_execute_captures_error wFailTask (.user 7) (by decide) rfl).2.1,
   (claim_execute_captures_error wFailTask (.user 7) (by decide) rfl).2.2.1,
   (claim_execute_captures_error wFailTask (.user 7) (by decide) rfl).2.2.2
     wSchedF "F" rfl⟩

/-- C4 counterexample: the claim says a task still queued when the stop flag
is set is never executed; but with the stop flag set and the single PENDING
task `wQueuedTask` still queued, the worker loop pops and executes it (it
ends COMPLETED) before exiting. -/
theorem claim_shutdown_discard_cex :
    shutdownRun [wQueuedTask] = [wQueuedTask.execute] ∧
    (wQueuedTask.execute).status = .completed ∧
    shutdownRun [wQueuedTask] ≠ [] := by
  have h : shutdownRun [wQueuedTask] = [wQueuedTask.execute] := by
    simp [shutdownRun, selectMax]
  refine ⟨h, rfl, ?_⟩
  rw [h]
  simp

/-- C4 amended: on shutdown the workers drain the queue rather than discard
it — a worker exits only once the stop flag is set and the queue is empty,
so every queued task is popped and executed exactly once. -/
theorem claim_shutdown_drains (l : List Task) :
    List.Perm (shutdownRun l) (l.map Task.execute) := by
  rw [shutdownRun_eq_map_execute]
  exact (drain_perm l).map Task.execute

/-- C5: `cancelTask` on an unknown name throws `TaskNotFoundException`;
on a registered task it returns true and moves the task to CANCELLED exactly
when the task is cancellable and PENDING, and otherwise returns false leaving
the scheduler state (hence the task's status) unchanged. -/
theorem claim_cancelTask (st : TaskScheduler) (name : String) :
    (st.tasks.lookup name = none →
      TaskScheduler.cancelTask st name =
        (st, .error (.taskNotFound ("Task " ++ name ++ " not found")))) ∧
    ∀ t, st.tasks.lookup name = some t →
      ((t.cancellable = true ∧ t.status = .pending) →
        (TaskScheduler.cancelTask st name).2 = .ok true ∧
        ((TaskScheduler.cancelTask st name).1).tasks.lookup name =
          some t.cancel ∧
        (t.cancel).status = .cancelled) ∧
      (¬ (t.cancellable = true ∧ t.status = .pending) →
        TaskScheduler.cancelTask st name = (st, .ok false)) := by
  constructor
  · intro h
    simp only [TaskScheduler.cancelTask, h]
  · intro t ht
    constructor
    · intro hc
      have hr : TaskScheduler.cancelTask st name =
          ({ st with tasks := updateAssoc st.tasks name t.cancel,
                     cancelledTasks := st.cancelledTasks + 1 }, .ok true) := by
        simp only [TaskScheduler.cancelTask, ht]
        rw [if_pos hc]
      refine ⟨by rw [hr], ?_, ?_⟩
      · rw [hr]
        exact lookup_updateAssoc st.tasks name t t.cancel ht
      · unfold Task.cancel
        rw [if_pos ⟨hc.1, hc.2⟩]
    · intro hc
      simp only [TaskScheduler.cancelTask, ht]
      rw [if_neg hc]

/-- C5 witness: cancelling the PENDING cancellable task "P" succeeds;
cancelling the FAILED task "F" returns false with the state unchanged;
cancelling an unknown name throws TaskNotFound. -/
theorem claim_cancelTask_witness :
    (TaskScheduler.cancelTask wSchedP "P").2 = .ok true ∧
    TaskScheduler.cancelTask wSchedF "F" = (wSchedF, .ok false) ∧
    TaskScheduler.cancelTask wSchedF "missing" =
      (wSchedF, .error (.taskNotFound ("Task " ++ "missing" ++ " not found"))) :=
  ⟨(((claim_cancelTask wSchedP "P").2 wPendTask rfl).1 (by decide)).1,
   ((claim_cancelTask wSchedF "F").2 wFailTask.execute rfl).2 (by decide),
   (claim_cancelTask wSchedF "missing").1 rfl⟩

/-- C6: `execute()` on a CANCELLED task is an identity: the callable is not
consulted, the status stays CANCELLED, and a result holder that held no value
and no error still holds none. -/
theorem claim_execute_cancelled (t : Task) (h : t.status = .cancelled) :
    t.execute = t ∧
    ((t.res.result = none ∧ t.res.exc = none) →
      (t.execute).res.result = none ∧ (t.execute).res.exc = none) := by
  have he : t.execute = t := by
    unfold Task.execute
    rw [if_pos h]
  exact ⟨he, fun hr => by rw [he]; exact hr⟩

/-- C6 witness: executing the cancelled task `wCancTask` changes nothing and
leaves the result holder empty. -/
theorem claim_execute_cancelled_witness :
    wCancTask.execute = wCancTask ∧
    (wCancTask.execute).res.result = none ∧
    (wCancTask.execute).res.exc = none :=
  ⟨(claim_execute_cancelled wCancTask (by decide)).1,
   (claim_execute_cancelled wCancTask (by decide)).2 ⟨rfl, rfl⟩⟩

/-- C7 counterexample: the claim says no operation moves a task out of a
terminal status; but `execute()` only guards CANCELLED, so calling it on the
FAILED task `wDoneFail` (whose callable now succeeds) re-runs the callable
and moves the task to COMPLETED. -/
theorem claim_terminal_cex :
    wDoneFail.status = .failed ∧ (wDoneFail.execute).status = .completed :=
  ⟨rfl, rfl⟩

/-- C7 amended: CANCELLED is terminal under `execute`, and `cancel` and
`cancelTask` never move a task out of any terminal status (they only act on
PENDING tasks); but `execute()` itself does not guard COMPLETED/FAILED, so
terminality for those two statuses holds only because each task is executed
at most once. -/
theorem claim_terminal_amended (t : Task)
    (h : t.status = .completed ∨ t.status = .failed ∨ t.status = .cancelled) :
    t.cancel = t ∧
    (t.status = .cancelled → t.execute = t) ∧
    (∀ st name, st.tasks.lookup name = some t →
      TaskScheduler.cancelTask st name = (st, .ok false)) := by
  have hnp : ¬ (t.status = .pending) := by
    rcases h with h | h | h <;> simp [h]
  refine ⟨?_, ?_, ?_⟩
  · unfold Task.cancel
    rw [if_neg fun hc => hnp hc.2]
  · intro hc
    unfold Task.execute
    rw [if_pos hc]
  · intro st name hl
    simp only [TaskScheduler.cancelTask, hl]
    rw [if_neg fun hc => hnp hc.2]

/-- C7 amended witness: on the FAILED task `wDoneFail`, `cancel` is the
identity and `cancelTask` returns false without touching the state. -/
theorem claim_terminal_amended_witness :
    wDoneFail.cancel = wDoneFail ∧
    TaskScheduler.cancelTask wSchedD "D" = (wSchedD, .ok false) :=
  ⟨(claim_terminal_amended wDoneFail (Or.inr (Or.inl rfl))).1,
   (claim_terminal_amended wDoneFail (Or.inr (Or.inl rfl))).2.2
     wSchedD "D" rfl⟩

/-- C8: the statistics-update branch inside `getTaskStatus` is dead code —
its guard compares a saved status with a fresh read of the same field, which
can never differ sequentially — so `getTaskStatus` never changes the state,
and after the "job" task has completed and `getTaskStatus` has observed it,
`getStatistics` still reports zero completed tasks, contradicting the
claim. -/
theorem claim_stats_on_getTaskStatus :
    (∀ st name, (TaskScheduler.getTaskStatus st name).1 = st) ∧
    (TaskScheduler.getTaskStatus wSchedRun "job").2 = .ok .completed ∧
    (TaskScheduler.getStatistics
      (TaskScheduler.getTaskStatus wSchedRun "job").1).completedTasks = 0 := by
  refine ⟨?_, rfl, rfl⟩
  intro st name
  cases hl : st.tasks.lookup name with
  | none => simp [TaskScheduler.getTaskStatus, hl]
  | some t => simp [TaskScheduler.getTaskStatus, hl]

/-- C9: the typed accessor `getTaskResult` on a task whose declared result
type differs from the requested one throws the type-mismatch error — an
error distinct from `TaskNotFoundException` and `DuplicateTaskException` —
and on an unknown name it throws `TaskNotFoundException`. -/
theorem claim_type_mismatch (st : TaskScheduler) (name : String) (t : Task)
    (rt : RType) (h1 : st.tasks.lookup name = some t) (h2 : t.rtype ≠ rt) :
    TaskScheduler.getTaskResult st name rt =
      (st, .error (.taskScheduler "Task result type mismatch")) ∧
    (∀ m, Exc.taskScheduler "Task result type mismatch" ≠ .taskNotFound m ∧
          Exc.taskScheduler "Task result type mismatch" ≠ .duplicateTask m) ∧
    (∀ st2 n2, st2.tasks.lookup n2 = none →
      TaskScheduler.getTaskResult st2 n2 rt =
        (st2, .error (.taskNotFound ("Task " ++ n2 ++ " not found")))) := by
  refine ⟨?_, ?_, ?_⟩
  · simp only [TaskScheduler.getTaskResult, h1]
    rw [if_neg h2]
  · intro m
    exact ⟨by simp, by simp⟩
  · intro st2 n2 hl
    simp only [TaskScheduler.getTaskResult, hl]

/-- C9 witness: requesting the string-typed result of the nat-typed task "F"
throws the type-mismatch error; requesting an unknown name throws
TaskNotFound. -/
theorem claim_type_mismatch_witness :
    TaskScheduler.getTaskResult wSchedF "F" .strT =
      (wSchedF, .error (.taskScheduler "Task result type mismatch")) ∧
    TaskScheduler.getTaskResult wSchedF "missing" .strT =
      (wSchedF, .error (.taskNotFound ("Task " ++ "missing" ++ " not found"))) :=
  ⟨(claim_type_mismatch wSchedF "F" wFailTask.execute .strT rfl (by decide)).1,
   (claim_type_mismatch wSchedF "F" wFailTask.execute .strT rfl
     (by decide)).2.2 wSchedF "missing" rfl⟩

/-- C10: `getTaskResultAsAny` throws only for an unknown name
(TaskNotFound); for a registered task it never throws: it returns an empty
any for a FAILED, CANCELLED, PENDING or RUNNING task (the captured error is
not re-raised) and for every void-result task, and for a COMPLETED non-void
task it returns an any wrapping `std::optional<ResultType>` — not the bare
value.  The hypothesis `t.wf` is the lifecycle invariant relating the stored
result to the status. -/
theorem claim_getResultAsAny (st : TaskScheduler) (name : String) (t : Task)
    (h : st.tasks.lookup name = some t) (hwf : t.wf) :
    (TaskScheduler.getTaskResultAsAny st name).1 = st ∧
    (∃ a, (TaskScheduler.getTaskResultAsAny st name).2 = .ok a) ∧
    ((t.status = .failed ∨ t.status = .cancelled ∨ t.status = .pending ∨
        t.status = .running) →
      (TaskScheduler.getTaskResultAsAny st name).2 = .ok .empty) ∧
    (t.rtype = .unitT →
      (TaskScheduler.getTaskResultAsAny st name).2 = .ok .empty) ∧
    (t.status = .completed → t.rtype ≠ .unitT →
      ∃ v, t.res.result = some v ∧
        (TaskScheduler.getTaskResultAsAny st name).2 =
          .ok (.wrapped (some v)) ∧
        ∀ w, AnyVal.wrapped (some v) ≠ .raw w) ∧
    (∀ st2 n2, st2.tasks.lookup n2 = none →
      TaskScheduler.getTaskResultAsAny st2 n2 =
        (st2, .error (.taskNotFound ("Task " ++ n2 ++ " not found")))) := by
  have hg : TaskScheduler.getTaskResultAsAny st name =
      (st, .ok t.getResultAsAny) := by
    simp only [TaskScheduler.getTaskResultAsAny, h]
  refine ⟨by rw [hg], ⟨t.getResultAsAny, by rw [hg]⟩, ?_, ?_, ?_, ?_⟩
  · intro hst
    have hnc : ¬ (t.status = .completed) := by
      rcases hst with h' | h' | h' | h' <;> simp [h']
    have hres : t.res.result = none := by
      cases hr : t.res.result with
      | none => rfl
      | some v =>
        exact absurd (hwf.mp (by rw [hr]; rfl)).1 hnc
    rw [hg]
    by_cases hrt : t.rtype = .unitT <;>
      simp [Task.getResultAsAny, hres, hrt]
  · intro hrt
    rw [hg]
    simp [Task.getResultAsAny, hrt]
  · intro hc hrt
    obtain ⟨v, hv⟩ := Option.isSome_iff_exists.mp (hwf.mpr ⟨hc, hrt⟩)
    refine ⟨v, hv, ?_, ?_⟩
    · rw [hg]
      simp [Task.getResultAsAny, hrt, hv]
    · intro w
      simp
  · intro st2 n2 hl
    simp only [TaskScheduler.getTaskResultAsAny, hl]

/-- C10 witness: on the COMPLETED nat task "job" the erased accessor returns
an any wrapping `optional(42)`; on an unknown name it throws TaskNotFound. -/
theorem claim_getResultAsAny_witness :
    (TaskScheduler.getTaskResultAsAny wSchedRun "job").2 =
      .ok (.wrapped (some (.natV 42))) ∧
    TaskScheduler.getTaskResultAsAny wSchedF "missing" =
      (wSchedF, .error (.taskNotFound ("Task " ++ "missing" ++ " not found"))) := by
  obtain ⟨v, hv, he, -⟩ :=
    (claim_getResultAsAny wSchedRun "job" wTaskJobDone rfl
      (by decide)).2.2.2.2.1 rfl (by decide)
  have hv42 : v = Val.natV 42 := by
    have : wTaskJobDone.res.result = some (Val.natV 42) := rfl
    rw [this] at hv
    exact (Option.some_inj.mp hv).symm
  constructor
  · rw [← hv42]
    exact he
  · exact (claim_getResultAsAny wSchedRun "job" wTaskJobDone rfl
      (by decide)).2.2.2.2.2 wSchedF "missing" rfl

end ATS
